import Mathlib

/-!
Shallow embedding of the QueueCTL queue engine (src/queue-manager.js,
src/config-manager.js inside src/worker-manager.js).

Modelling conventions:
* Timestamps are natural numbers (milliseconds since the epoch).  The source
  stores ISO-8601 UTC strings and compares them with string comparison, which
  is order-isomorphic to the numeric comparison for this fixed format.
* JavaScript object fields that may be `null` become `Option`.
* The JavaScript default idiom `x || d` treats `0`, `""` and `null`/absent as
  falsy; the `jsOr*` helpers reproduce this.
* `Array.prototype.sort` is a stable sort (ECMAScript 2019); `sortByPriority`
  below is a stable insertion sort, hence extensionally equal to the source's
  sort under the comparator `(a, b) => a.job.priority - b.job.priority`.
* The store is the parsed contents of `jobs.json`: a `List Job`.  Each store
  operation of the source (acquire lock, read, mutate, write, release lock)
  becomes a pure function from the store to the new store; operations that
  `throw` return `Except String`.
* `parseFloat` results are modelled as `Option ℚ` (`none` for `NaN`).
-/

namespace QueueCTL

/-- The six job states of the engine (queue-manager.js). -/
inductive JState where
  | pending
  | processing
  | failed
  | completed
  | dead
  | cancelled
deriving DecidableEq, Repr

/-- A job record, mirroring the object built in `QueueManager.enqueue`
(queue-manager.js lines 110-124). -/
structure Job where
  id : String
  command : String
  state : JState
  attempts : Nat
  max_retries : Nat
  priority : Int
  timeout : Nat
  created_at : Nat
  updated_at : Nat
  next_retry_at : Option Nat
  error : Option String
  locked_by : Option String
  locked_at : Option Nat
deriving DecidableEq, Repr

/-- Input accepted by `enqueue` (the `jobData` argument). -/
structure JobData where
  id : Option String
  command : String
  max_retries : Option Nat
  priority : Option Int
  timeout : Option Nat
deriving DecidableEq, Repr

/-- JavaScript `x || d` for numbers: `0` and absent are falsy. -/
def jsOrNat : Option Nat → Nat → Nat
  | none, d => d
  | some 0, d => d
  | some (n + 1), _ => n + 1

/-- JavaScript `x || d` for (integer) numbers: `0` and absent are falsy. -/
def jsOrInt : Option Int → Int → Int
  | none, d => d
  | some v, d => if v = 0 then d else v

/-- JavaScript `x || d` for strings: the empty string and absent are falsy. -/
def jsOrStr : Option String → String → String
  | none, d => d
  | some s, d => if s = "" then d else s

/-- The job object constructed by `QueueManager.enqueue`
(queue-manager.js lines 110-124); `genId` stands for `this.generateId()`. -/
def mkJob (jobData : JobData) (genId : String) (now : Nat) : Job :=
  { id := jsOrStr jobData.id genId
    command := jobData.command
    state := JState.pending
    attempts := 0
    max_retries := jsOrNat jobData.max_retries 3
    priority := jsOrInt jobData.priority 5
    timeout := jsOrNat jobData.timeout 300000
    created_at := now
    updated_at := now
    next_retry_at := none
    error := none
    locked_by := none
    locked_at := none }

/-- `QueueManager.enqueue` (queue-manager.js lines 105-134): builds the job,
appends it to the store, returns the new store and the job.  The source
performs no validation and never throws on its own. -/
def enqueue (jobs : List Job) (jobData : JobData) (genId : String) (now : Nat) :
    List Job × Job :=
  let job := mkJob jobData genId now
  (jobs ++ [job], job)

/-- Mutate the first element satisfying `p` in place, as the source's
`jobs.find(...)` followed by field assignments does; no match leaves the
store unchanged (observably identical to skipping the write). -/
def updateFirst (p : Job → Bool) (f : Job → Job) : List Job → List Job
  | [] => []
  | j :: l => if p j then f j :: l else j :: updateFirst p f l

/-- `QueueManager.updateJobState` (queue-manager.js lines 179-197): sets
`state` and `error`, bumps `updated_at`, clears lock fields, on the first
job with the given id; silent no-op when the id is absent. -/
def updateJobState (jobs : List Job) (jobId : String) (stateA : JState)
    (errorA : Option String) (now : Nat) : List Job :=
  updateFirst (fun j => j.id == jobId)
    (fun job => { job with
        state := stateA
        error := errorA
        updated_at := now
        locked_by := none
        locked_at := none }) jobs

/-- The per-job transformation of `QueueManager.incrementAttempts`
(queue-manager.js lines 207-233).  Note the DLQ branch does not write
`newAttempts` back into `job.attempts`. -/
def failTransform (backoffBase now : Nat) (job : Job) : Job :=
  let newAttempts := job.attempts + 1
  if job.max_retries ≤ newAttempts then
    { job with
      state := JState.dead
      updated_at := now
      locked_by := none
      locked_at := none }
  else
    { job with
      attempts := newAttempts
      state := JState.failed
      next_retry_at := some (now + backoffBase ^ newAttempts * 1000)
      updated_at := now
      locked_by := none
      locked_at := none }

/-- `QueueManager.incrementAttempts` (queue-manager.js lines 199-239):
applies `failTransform` to the first job with the given id; returns the
store unchanged when the id is absent (`if (!job) return`). -/
def incrementAttempts (jobs : List Job) (jobId : String) (backoffBase : Nat)
    (now : Nat) : List Job :=
  updateFirst (fun j => j.id == jobId) (failTransform backoffBase now) jobs

/-- `QueueManager.cancelJob` (queue-manager.js lines 242-270): throws when the
id is absent, or the job is `processing` or `completed`; otherwise marks the
(first matching) job `cancelled`, clears lock fields, bumps `updated_at`. -/
def cancelJob (jobs : List Job) (jobId : String) (now : Nat) :
    Except String (List Job) :=
  match jobs.find? (fun j => j.id == jobId) with
  | none => Except.error ("Job " ++ jobId ++ " not found")
  | some job =>
    if job.state = JState.processing then
      Except.error "Cannot cancel job that is currently processing"
    else if job.state = JState.completed then
      Except.error "Cannot cancel completed job"
    else
      Except.ok (updateFirst (fun j => j.id == jobId)
        (fun j => { j with
            state := JState.cancelled
            updated_at := now
            locked_by := none
            locked_at := none }) jobs)

/-- `QueueManager.setJobError` (queue-manager.js lines 371-385): records the
error message and bumps `updated_at` on the first job with the given id;
silent no-op when the id is absent. -/
def setJobError (jobs : List Job) (jobId : String) (msg : String) (now : Nat) :
    List Job :=
  updateFirst (fun j => j.id == jobId)
    (fun job => { job with error := some msg, updated_at := now }) jobs

/-- The predicate of `QueueManager.retryFromDLQ`s lookup
(`j.id === jobId && j.state === 'dead'`, queue-manager.js line 298). -/
def dlqMatch (jobId : String) (j : Job) : Bool :=
  j.id == jobId && decide (j.state = JState.dead)

/-- `QueueManager.retryFromDLQ` (queue-manager.js lines 294-315): throws when
no job has the given id in state `dead`; otherwise revives the first such job
to `pending` with `attempts := 0`, `next_retry_at := none`, `error := none`. -/
def retryFromDLQ (jobs : List Job) (jobId : String) (now : Nat) :
    Except String (List Job) :=
  match jobs.find? (dlqMatch jobId) with
  | none => Except.error ("Job " ++ jobId ++ " not found in DLQ")
  | some _ => Except.ok (updateFirst (dlqMatch jobId)
      (fun job => { job with
          state := JState.pending
          attempts := 0
          next_retry_at := none
          error := none
          updated_at := now })
      jobs)

/-- The stale-lock horizon: 5 minutes in milliseconds (queue-manager.js
line 142). -/
def staleHorizonMs : Nat := 5 * 60 * 1000

/-- The clause `job.state === 'failed' && job.next_retry_at &&
job.next_retry_at <= now` (queue-manager.js line 152); `null` is falsy. -/
def retryDue (now : Nat) : Option Nat → Bool
  | some t => decide (t ≤ now)
  | none => false

/-- The clause `job.locked_by && job.locked_at < fiveMinutesAgo`
(queue-manager.js line 153); a `null` `locked_at` compares false in
JavaScript and here. -/
def lockStale (now : Nat) (j : Job) : Bool :=
  j.locked_by.isSome &&
    (match j.locked_at with
     | some t => decide (t < now - staleHorizonMs)
     | none => false)

/-- The eligibility filter of `QueueManager.getNextJob`
(queue-manager.js lines 147-155), with the source's early-return order. -/
def eligibleB (now : Nat) (j : Job) : Bool :=
  if j.state = JState.cancelled then false
  else if j.state = JState.pending then true
  else if decide (j.state = JState.failed) && retryDue now j.next_retry_at then true
  else if lockStale now j then true
  else false

/-- Pair each job with its array index, as the source's
`jobs.map((job, idx) => ({ job, idx }))` does (index first here). -/
def withIdx : Nat → List Job → List (Nat × Job)
  | _, [] => []
  | n, j :: l => (n, j) :: withIdx (n + 1) l

/-- The filtered eligible set of `getNextJob`, with original indices. -/
def eligibleList (jobs : List Job) (now : Nat) : List (Nat × Job) :=
  (withIdx 0 jobs).filter (fun p => eligibleB now p.2)

/-- Stable insertion step for the sort by ascending priority. -/
def insertByPriority (a : Nat × Job) : List (Nat × Job) → List (Nat × Job)
  | [] => [a]
  | b :: l =>
    if a.2.priority ≤ b.2.priority then a :: b :: l
    else b :: insertByPriority a l

/-- Stable sort by ascending `priority`; extensionally the ECMAScript stable
`.sort((a, b) => a.job.priority - b.job.priority)` of queue-manager.js
line 157. -/
def sortByPriority : List (Nat × Job) → List (Nat × Job)
  | [] => []
  | a :: l => insertByPriority a (sortByPriority l)

/-- The `eligibleJobs[0]` selection of `getNextJob`: head of the sorted
eligible set. -/
def selectedPair (jobs : List Job) (now : Nat) : Option (Nat × Job) :=
  (sortByPriority (eligibleList jobs now)).head?

/-- The first entry of minimal priority among `a :: l`: the value a stable
sort by ascending priority puts in front. -/
def firstMinAux (a : Nat × Job) : List (Nat × Job) → Nat × Job
  | [] => a
  | b :: l =>
    let m := firstMinAux b l
    if a.2.priority ≤ m.2.priority then a else m

/-- The in-place claim update of `getNextJob` (queue-manager.js
lines 166-169). -/
def claimUpdate (workerId : String) (now : Nat) (job : Job) : Job :=
  { job with
    state := JState.processing
    locked_by := some workerId
    locked_at := some now
    updated_at := now }

/-- `QueueManager.getNextJob` (queue-manager.js lines 137-177): returns the
claimed job (already updated, as the source returns `jobs[idx]` after the
mutation) and the new store; `(none, jobs)` when nothing is eligible. -/
def getNextJob (jobs : List Job) (workerId : String) (now : Nat) :
    Option Job × List Job :=
  match selectedPair jobs now with
  | none => (none, jobs)
  | some (idx, job) =>
    (some (claimUpdate workerId now job),
     jobs.set idx (claimUpdate workerId now job))

/-- The metrics record returned by `QueueManager.getMetrics`; `successRate`
holds the numeric value of the source's one-decimal percentage string. -/
structure Metrics where
  totalJobs : Nat
  completedJobs : Nat
  avgExecutionTime : Int
  successRate : ℚ
deriving DecidableEq, Repr

/-- JavaScript `Math.round`: floor of `x + 1/2`, also for negative `x`. -/
def jsMathRound (x : ℚ) : Int := ⌊x + 1 / 2⌋

/-- JavaScript `Number.prototype.toFixed(1)` on a non-negative value:
round half up to one decimal place. -/
def toFixed1 (x : ℚ) : ℚ := (⌊x * 10 + 1 / 2⌋ : ℚ) / 10

/-- The `completed` sublist of `getMetrics` (queue-manager.js line 340). -/
def completedOf (jobs : List Job) : List Job :=
  jobs.filter (fun j => decide (j.state = JState.completed))

/-- The `executionTimes` list of `getMetrics` (queue-manager.js
lines 351-355): `updated_at - created_at` over the completed jobs only. -/
def latenciesOf (jobs : List Job) : List Int :=
  (completedOf jobs).map (fun j => (j.updated_at : Int) - (j.created_at : Int))

/-- `QueueManager.getMetrics` (queue-manager.js lines 338-365). -/
def getMetrics (jobs : List Job) : Metrics :=
  if (completedOf jobs).length = 0 then
    { totalJobs := jobs.length
      completedJobs := 0
      avgExecutionTime := 0
      successRate := 0 }
  else
    let avgTime : ℚ :=
      (((latenciesOf jobs).sum : Int) : ℚ) / ((latenciesOf jobs).length : ℚ)
    { totalJobs := jobs.length
      completedJobs := (completedOf jobs).length
      avgExecutionTime := jsMathRound (avgTime / 1000)
      successRate :=
        toFixed1 ((((completedOf jobs).length : ℚ) / (jobs.length : ℚ)) * 100) }

/-- The configuration store of config-manager.js: the two recognized keys. -/
structure Config where
  maxRetries : ℚ
  backoffBase : ℚ
deriving DecidableEq, Repr

/-- The `validKeys` array of `ConfigManager.set` (config-manager.js). -/
def validKeys : List String := ["max-retries", "backoff-base"]

namespace ConfigManager

/-- `ConfigManager.set` (config-manager.js lines 318-333 of the bundled
worker-manager source): rejects unknown keys, then rejects a `NaN` or
non-positive value (`value : Option ℚ` models the `parseFloat` result,
`none` for `NaN`); only then writes the new configuration. -/
def set (cfg : Config) (key : String) (value : Option ℚ) :
    Except String Config :=
  if key ∈ validKeys then
    match value with
    | none => Except.error "Value must be a positive number"
    | some v =>
      if v ≤ 0 then Except.error "Value must be a positive number"
      else Except.ok
        (if key = "max-retries" then { cfg with maxRetries := v }
         else { cfg with backoffBase := v })
  else
    Except.error ("Invalid config key. Valid keys: max-retries, backoff-base")

end ConfigManager

/-! Concrete job fixtures for the executable checks below. -/

/-- A plain pending job used as the base of the concrete fixtures. -/
def baseJob : Job :=
  { id := "a"
    command := "cmd"
    state := JState.pending
    attempts := 0
    max_retries := 3
    priority := 5
    timeout := 300000
    created_at := 0
    updated_at := 0
    next_retry_at := none
    error := none
    locked_by := none
    locked_at := none }

/-- Priority-1 job enqueued later (newer `created_at`) but stored first. -/
def c3Newer : Job := { baseJob with id := "n", priority := 1, created_at := 100 }

/-- Priority-1 job with the older `created_at`, stored second. -/
def c3Older : Job := { baseJob with id := "o", priority := 1, created_at := 50 }

/-- A completed job still carrying a stale lock. -/
def c6StaleCompleted : Job :=
  { baseJob with
    state := JState.completed
    locked_by := some "w_old"
    locked_at := some 0 }

/-- A completed job for the metrics check. -/
def c8Completed : Job :=
  { baseJob with id := "m1", state := JState.completed, updated_at := 2500 }

/-- A pending job for the metrics check. -/
def c8Pending : Job := { baseJob with id := "m2" }

/-- An already-completed job. -/
def c5Completed : Job := { baseJob with id := "c", state := JState.completed }

/-- An already-cancelled job. -/
def c5Cancelled : Job := { baseJob with id := "x", state := JState.cancelled }

/-- A job one failure away from the DLQ (`max_retries = 1`). -/
def c4Candidate : Job := { baseJob with max_retries := 1 }

/-- Enqueue input with a caller-supplied id and an empty command. -/
def jdEmptyDup : JobData :=
  { id := some "dup"
    command := ""
    max_retries := none
    priority := none
    timeout := none }

/-- Enqueue input reusing the id of `jdEmptyDup`. -/
def jdHiDup : JobData :=
  { id := some "dup"
    command := "echo hi"
    max_retries := none
    priority := none
    timeout := none }

/-- Enqueue input with no optional fields. -/
def jdPlain : JobData :=
  { id := none
    command := "c"
    max_retries := none
    priority := none
    timeout := none }

/-! Helper lemmas about `updateFirst`, `find?`, `withIdx` and the stable
priority sort. -/

theorem updateFirst_of_neg (p : Job → Bool) (f : Job → Job) (l : List Job) :
    (∀ q ∈ l, p q = false) → updateFirst p f l = l := by
  induction l with
  | nil => intro _; rfl
  | cons j t ih =>
    intro h
    have hj := h j (List.mem_cons_self j t)
    simp only [updateFirst, hj, Bool.false_eq_true, if_false, List.cons.injEq,
      true_and]
    exact ih fun q hq => h q (List.mem_cons_of_mem j hq)

theorem updateFirst_append (p : Job → Bool) (f : Job → Job)
    (l₁ l₂ : List Job) (j : Job) (hj : p j = true) :
    (∀ q ∈ l₁, p q = false) →
    updateFirst p f (l₁ ++ j :: l₂) = l₁ ++ f j :: l₂ := by
  induction l₁ with
  | nil => intro _; simp [updateFirst, hj]
  | cons a t ih =>
    intro h₁
    have ha := h₁ a (List.mem_cons_self a t)
    simp only [List.cons_append, updateFirst, ha, Bool.false_eq_true, if_false,
      List.cons.injEq, true_and]
    exact ih fun q hq => h₁ q (List.mem_cons_of_mem a hq)

theorem find?_append_first (p : Job → Bool) (l₁ l₂ : List Job) (j : Job)
    (h₁ : ∀ q ∈ l₁, p q = false) (hj : p j = true) :
    (l₁ ++ j :: l₂).find? p = some j := by
  have hnone : l₁.find? p = none :=
    List.find?_eq_none.mpr (by intro x hx; simp [h₁ x hx])
  rw [List.find?_append, hnone]
  simp [List.find?, hj]

theorem mem_insertByPriority (a x : Nat × Job) (l : List (Nat × Job)) :
    x ∈ insertByPriority a l → x = a ∨ x ∈ l := by
  induction l with
  | nil =>
    intro h
    simp only [insertByPriority, List.mem_singleton] at h
    exact Or.inl h
  | cons b t ih =>
    intro h
    by_cases hc : a.2.priority ≤ b.2.priority
    · simp only [insertByPriority, if_pos hc, List.mem_cons] at h
      rcases h with h | h | h
      · exact Or.inl h
      · exact Or.inr (by simp [h])
      · exact Or.inr (List.mem_cons_of_mem b h)
    · simp only [insertByPriority, if_neg hc, List.mem_cons] at h
      rcases h with h | h
      · exact Or.inr (by simp [h])
      · rcases ih h with h | h
        · exact Or.inl h
        · exact Or.inr (List.mem_cons_of_mem b h)

theorem mem_sortByPriority (x : Nat × Job) (l : List (Nat × Job)) :
    x ∈ sortByPriority l → x ∈ l := by
  induction l with
  | nil => intro h; simp [sortByPriority] at h
  | cons a t ih =>
    intro h
    rcases mem_insertByPriority a x (sortByPriority t) h with h | h
    · simp [h]
    · exact List.mem_cons_of_mem a (ih h)

theorem head?_insertByPriority_of_head (a c : Nat × Job)
    (s : List (Nat × Job)) (h : s.head? = some c) :
    (insertByPriority a s).head? =
      some (if a.2.priority ≤ c.2.priority then a else c) := by
  cases s with
  | nil => simp at h
  | cons b u =>
    simp only [List.head?_cons, Option.some.injEq] at h
    subst h
    by_cases hc : a.2.priority ≤ b.2.priority
    · simp [insertByPriority, hc]
    · simp [insertByPriority, hc]

theorem head?_sortByPriority_cons (a : Nat × Job) (l : List (Nat × Job)) :
    (sortByPriority (a :: l)).head? = some (firstMinAux a l) := by
  induction l generalizing a with
  | nil => rfl
  | cons b t ih =>
    show (insertByPriority a (sortByPriority (b :: t))).head? = _
    rw [head?_insertByPriority_of_head a (firstMinAux b t) _ (ih b)]
    rfl

theorem firstMinAux_mem (a : Nat × Job) (l : List (Nat × Job)) :
    firstMinAux a l ∈ a :: l := by
  induction l generalizing a with
  | nil => simp [firstMinAux]
  | cons b t ih =>
    simp only [firstMinAux]
    by_cases hc : a.2.priority ≤ (firstMinAux b t).2.priority
    · simp [hc]
    · simp only [hc, if_false, List.mem_cons]
      rcases List.mem_cons.mp (ih b) with h | h
      · exact Or.inr (Or.inl h)
      · exact Or.inr (Or.inr h)

theorem firstMinAux_min (a : Nat × Job) (l : List (Nat × Job)) :
    ∀ q ∈ a :: l, (firstMinAux a l).2.priority ≤ q.2.priority := by
  induction l generalizing a with
  | nil =>
    intro q hq
    rcases List.mem_cons.mp hq with h | h
    · exact le_of_eq (by rw [h]; rfl)
    · simp at h
  | cons b t ih =>
    intro q hq
    simp only [firstMinAux]
    by_cases hc : a.2.priority ≤ (firstMinAux b t).2.priority
    · rw [if_pos hc]
      rcases List.mem_cons.mp hq with h | h
      · exact le_of_eq (by rw [h])
      · exact le_trans hc (ih b q h)
    · rw [if_neg hc]
      rcases List.mem_cons.mp hq with h | h
      · rw [h]; exact le_of_not_le hc
      · exact ih b q h

theorem firstMinAux_first (a : Nat × Job) (l : List (Nat × Job)) :
    ∃ l₁ l₂, a :: l = l₁ ++ firstMinAux a l :: l₂ ∧
      ∀ q ∈ l₁, (firstMinAux a l).2.priority < q.2.priority := by
  induction l generalizing a with
  | nil => exact ⟨[], [], rfl, by simp⟩
  | cons b t ih =>
    simp only [firstMinAux]
    by_cases hc : a.2.priority ≤ (firstMinAux b t).2.priority
    · rw [if_pos hc]
      exact ⟨[], b :: t, rfl, by simp⟩
    · rw [if_neg hc]
      rcases ih b with ⟨t₁, t₂, hsplit, hlt⟩
      refine ⟨a :: t₁, t₂, ?_, ?_⟩
      · rw [List.cons_append, ← hsplit]
      · intro q hq
        rcases List.mem_cons.mp hq with h | h
        · rw [h]; exact lt_of_not_le hc
        · exact hlt q h

theorem mem_withIdx_le (n : Nat) (l : List Job) (q : Nat × Job) :
    q ∈ withIdx n l → n ≤ q.1 := by
  induction l generalizing n with
  | nil => intro h; simp [withIdx] at h
  | cons j t ih =>
    intro h
    simp only [withIdx] at h
    rcases List.mem_cons.mp h with h | h
    · rw [h]
    · exact le_trans (Nat.le_succ n) (ih (n + 1) h)

theorem withIdx_pairwise (n : Nat) (l : List Job) :
    (withIdx n l).Pairwise (fun p q => p.1 < q.1) := by
  induction l generalizing n with
  | nil => exact List.Pairwise.nil
  | cons j t ih =>
    refine List.Pairwise.cons ?_ (ih (n + 1))
    intro q hq
    exact lt_of_lt_of_le (Nat.lt_succ_self n) (mem_withIdx_le (n + 1) t q hq)

theorem mem_withIdx_get? (n : Nat) (l : List Job) (q : Nat × Job) :
    q ∈ withIdx n l → l.get? (q.1 - n) = some q.2 := by
  induction l generalizing n with
  | nil => intro h; simp [withIdx] at h
  | cons j t ih =>
    intro h
    simp only [withIdx] at h
    rcases List.mem_cons.mp h with h | h
    · rw [h]; simp
    · have hle : n + 1 ≤ q.1 := mem_withIdx_le (n + 1) t q h
      have harith : q.1 - n = (q.1 - (n + 1)) + 1 := by omega
      rw [harith]
      simpa using ih (n + 1) h

theorem mem_eligibleList (jobs : List Job) (now : Nat) (q : Nat × Job)
    (h : q ∈ eligibleList jobs now) :
    q ∈ withIdx 0 jobs ∧ eligibleB now q.2 = true := by
  have hm := List.mem_filter.mp h
  exact ⟨hm.1, hm.2⟩

theorem eligibleList_pairwise (jobs : List Job) (now : Nat) :
    (eligibleList jobs now).Pairwise (fun p q => p.1 < q.1) :=
  (withIdx_pairwise 0 jobs).sublist
    (List.filter_sublist (withIdx 0 jobs))

theorem eligibleB_cases (now : Nat) (j : Job) (h : eligibleB now j = true) :
    j.state ≠ JState.cancelled ∧
      (j.state = JState.pending ∨
       (j.state = JState.failed ∧ retryDue now j.next_retry_at = true) ∨
       lockStale now j = true) := by
  unfold eligibleB at h
  split_ifs at h with hc hp hf hs
  · refine ⟨hc, ?_⟩; exact Or.inl hp
  · refine ⟨hc, Or.inr (Or.inl ?_)⟩
    simp only [Bool.and_eq_true, decide_eq_true_eq] at hf
    exact hf
  · exact ⟨hc, Or.inr (Or.inr hs)⟩
theorem idBeq_false (q : Job) (jobId : String) (h : q.id ≠ jobId) :
    (q.id == jobId) = false := by
  simp [h]

theorem dlqMatch_eq_false (jobId : String) (q : Job)
    (h : ¬ (q.id = jobId ∧ q.state = JState.dead)) :
    dlqMatch jobId q = false := by
  rcases not_and_or.mp h with h | h
  · simp [dlqMatch, h]
  · simp [dlqMatch, h]

theorem selectedPair_some (jobs : List Job) (now : Nat) (m : Nat × Job)
    (h : selectedPair jobs now = some m) :
    m ∈ eligibleList jobs now
    ∧ (∀ q ∈ eligibleList jobs now, m.2.priority ≤ q.2.priority)
    ∧ (∀ q ∈ eligibleList jobs now, q.2.priority = m.2.priority → m.1 ≤ q.1) := by
  cases heq : eligibleList jobs now with
  | nil =>
    unfold selectedPair at h
    rw [heq] at h
    simp [sortByPriority] at h
  | cons a t =>
    unfold selectedPair at h
    rw [heq, head?_sortByPriority_cons] at h
    have hm : firstMinAux a t = m := by
      simpa using h
    subst hm
    refine ⟨firstMinAux_mem a t, fun q hq => firstMinAux_min a t q hq, ?_⟩
    intro q hq hpri
    rcases firstMinAux_first a t with ⟨l₁, l₂, hsplit, hlt⟩
    have hpw : (eligibleList jobs now).Pairwise (fun p q => p.1 < q.1) :=
      eligibleList_pairwise jobs now
    rw [heq, hsplit] at hpw
    rcases List.pairwise_append.mp hpw with ⟨hpw1, hpw2, hpw3⟩
    have hq2 : q ∈ l₁ ++ firstMinAux a t :: l₂ := by
      rw [← hsplit]
      exact hq
    rcases List.mem_append.mp hq2 with hq3 | hq3
    · exact absurd (hpri ▸ hlt q hq3) (lt_irrefl _)
    · rcases List.mem_cons.mp hq3 with hq4 | hq4
      · rw [hq4]
      · exact le_of_lt ((List.pairwise_cons.mp hpw2).1 q hq4)

theorem selectedPair_some_of_ne (jobs : List Job) (now : Nat)
    (h : eligibleList jobs now ≠ []) : selectedPair jobs now ≠ none := by
  cases heq : eligibleList jobs now with
  | nil => exact absurd heq h
  | cons a t =>
    unfold selectedPair
    rw [heq, head?_sortByPriority_cons]
    simp

theorem getNextJob_of_selected (jobs : List Job) (workerId : String)
    (now : Nat) (i : Nat) (j : Job)
    (h : selectedPair jobs now = some (i, j)) :
    getNextJob jobs workerId now =
      (some (claimUpdate workerId now j),
       jobs.set i (claimUpdate workerId now j)) := by
  unfold getNextJob
  rw [h]

theorem getNextJob_of_empty (jobs : List Job) (workerId : String)
    (now : Nat) (h : eligibleList jobs now = []) :
    getNextJob jobs workerId now = (none, jobs) := by
  unfold getNextJob selectedPair
  rw [h]
  rfl

/-!
The ten claims.
-/

/-- C1: refuted invariant I4 on an executed reachable state: from the empty
store, enqueue a job with max_retries 1, claim it, then fail it.  The job
lands in the DLQ (state dead) with attempts 0 below max_retries 1, because
the DLQ branch of `incrementAttempts` never writes the incremented count
back (it only logs it), contradicting the claimed
`dead implies attempts ≥ max_retries`. -/
theorem claimC1_dead_attempts_eval :
    (incrementAttempts
        ((getNextJob ((enqueue []
            { id := some "j1", command := "run", max_retries := some 1,
              priority := none, timeout := none } "gen" 1000).1)
          "worker_1" 2000).2)
        "j1" 2 3000).map (fun j => (j.state, j.attempts, j.max_retries))
      = [(JState.dead, 0, 1)] := by
  decide

/-- C4: `incrementAttempts` computes the new attempt count `attempts + 1`;
when it reaches `max_retries` the job transitions to dead with its lock
fields cleared, otherwise it transitions to failed with `next_retry_at`
equal to now plus `backoffBase ^ (attempts + 1)` seconds (stored in
milliseconds) and its lock fields cleared; all other jobs are untouched. -/
theorem claimC4_retry_policy (l₁ l₂ : List Job) (j : Job) (jobId : String)
    (base now : Nat) (h₁ : ∀ q ∈ l₁, q.id ≠ jobId) (hj : j.id = jobId) :
    ∃ r, incrementAttempts (l₁ ++ j :: l₂) jobId base now = l₁ ++ r :: l₂
      ∧ (j.max_retries ≤ j.attempts + 1 →
          r.state = JState.dead ∧ r.locked_by = none ∧ r.locked_at = none
            ∧ r.updated_at = now)
      ∧ (j.attempts + 1 < j.max_retries →
          r.state = JState.failed ∧ r.attempts = j.attempts + 1
            ∧ r.next_retry_at = some (now + base ^ (j.attempts + 1) * 1000)
            ∧ r.locked_by = none ∧ r.locked_at = none ∧ r.updated_at = now) := by
  refine ⟨failTransform base now j, ?_, ?_, ?_⟩
  · exact updateFirst_append _ _ l₁ l₂ j (by simp [hj])
      (fun q hq => idBeq_false q jobId (h₁ q hq))
  · intro hd
    simp [failTransform, hd]
  · intro hlt
    have hnd : ¬ j.max_retries ≤ j.attempts + 1 := by omega
    simp [failTransform, hnd]

/-- C4 witness: a job with attempts 0 and max_retries 1 takes the DLQ
branch of the retry policy. -/
theorem claimC4_retry_policy_witness :
    ∃ r, incrementAttempts ([] ++ c4Candidate :: []) "a" 2 5 = [] ++ r :: []
      ∧ (c4Candidate.max_retries ≤ c4Candidate.attempts + 1 →
          r.state = JState.dead ∧ r.locked_by = none ∧ r.locked_at = none
            ∧ r.updated_at = 5)
      ∧ (c4Candidate.attempts + 1 < c4Candidate.max_retries →
          r.state = JState.failed ∧ r.attempts = c4Candidate.attempts + 1
            ∧ r.next_retry_at = some (5 + 2 ^ (c4Candidate.attempts + 1) * 1000)
            ∧ r.locked_by = none ∧ r.locked_at = none ∧ r.updated_at = 5) :=
  claimC4_retry_policy [] [] c4Candidate "a" 2 5 (by simp) rfl

/-- C10: `updateJobState`, `setJobError` and `incrementAttempts` are silent
no-ops when no job has the given id, whereas `cancelJob` and `retryFromDLQ`
raise not-found errors for a missing id. -/
theorem claimC10_missing_id (s : List Job) (jobId : String)
    (st : JState) (err : Option String) (msg : String) (base now : Nat)
    (h : ∀ q ∈ s, q.id ≠ jobId) :
    updateJobState s jobId st err now = s
    ∧ setJobError s jobId msg now = s
    ∧ incrementAttempts s jobId base now = s
    ∧ cancelJob s jobId now = Except.error ("Job " ++ jobId ++ " not found")
    ∧ retryFromDLQ s jobId now =
        Except.error ("Job " ++ jobId ++ " not found in DLQ") := by
  have hb : ∀ q ∈ s, (q.id == jobId) = false :=
    fun q hq => idBeq_false q jobId (h q hq)
  have hd : ∀ q ∈ s, dlqMatch jobId q = false :=
    fun q hq => dlqMatch_eq_false jobId q (by intro hc; exact h q hq hc.1)
  refine ⟨updateFirst_of_neg _ _ s hb, updateFirst_of_neg _ _ s hb,
    updateFirst_of_neg _ _ s hb, ?_, ?_⟩
  · have hn : s.find? (fun j => j.id == jobId) = none :=
      List.find?_eq_none.mpr (by intro x hx; simp [hb x hx])
    unfold cancelJob
    rw [hn]
  · have hn : s.find? (dlqMatch jobId) = none :=
      List.find?_eq_none.mpr (by intro x hx; simp [hd x hx])
    unfold retryFromDLQ
    rw [hn]

/-- C10 witness: a one-job store and an id not in it. -/
theorem claimC10_missing_id_witness :
    updateJobState [baseJob] "zz" JState.completed none 5 = [baseJob]
    ∧ setJobError [baseJob] "zz" "boom" 5 = [baseJob]
    ∧ incrementAttempts [baseJob] "zz" 2 5 = [baseJob]
    ∧ cancelJob [baseJob] "zz" 5 = Except.error ("Job " ++ "zz" ++ " not found")
    ∧ retryFromDLQ [baseJob] "zz" 5 =
        Except.error ("Job " ++ "zz" ++ " not found in DLQ") :=
  claimC10_missing_id [baseJob] "zz" JState.completed none "boom" 2 5
    (by decide)

/-- C7: `retryFromDLQ` fails with a not-found error unless some job has the
given id in state dead; on success the first such job is revived to pending
with attempts 0, error cleared and next_retry_at cleared, and every other
job is untouched. -/
theorem claimC7_retry_from_dlq (s l₁ l₂ : List Job) (j : Job)
    (jobId : String) (now : Nat) :
    ((∀ q ∈ s, ¬ (q.id = jobId ∧ q.state = JState.dead)) →
      retryFromDLQ s jobId now =
        Except.error ("Job " ++ jobId ++ " not found in DLQ"))
    ∧ ((∀ q ∈ l₁, ¬ (q.id = jobId ∧ q.state = JState.dead)) →
        j.id = jobId → j.state = JState.dead →
        retryFromDLQ (l₁ ++ j :: l₂) jobId now =
          Except.ok (l₁ ++ { j with
              state := JState.pending
              attempts := 0
              next_retry_at := none
              error := none
              updated_at := now } :: l₂)) := by
  constructor
  · intro h
    have hn : s.find? (dlqMatch jobId) = none :=
      List.find?_eq_none.mpr
        (by intro x hx; simp [dlqMatch_eq_false jobId x (h x hx)])
    unfold retryFromDLQ
    rw [hn]
  · intro h₁ hid hst
    have hj : dlqMatch jobId j = true := by simp [dlqMatch, hid, hst]
    have hfind : (l₁ ++ j :: l₂).find? (dlqMatch jobId) = some j :=
      find?_append_first _ l₁ l₂ j
        (fun q hq => dlqMatch_eq_false jobId q (h₁ q hq)) hj
    unfold retryFromDLQ
    rw [hfind, updateFirst_append _ _ l₁ l₂ j hj
      (fun q hq => dlqMatch_eq_false jobId q (h₁ q hq))]

/-- C7 witness: an empty store has nothing to revive. -/
theorem claimC7_retry_from_dlq_witness :
    retryFromDLQ [] "z" 3 =
      Except.error ("Job " ++ "z" ++ " not found in DLQ") :=
  (claimC7_retry_from_dlq [] [] [] baseJob "z" 3).1 (by simp)


/-- C2 counterexample: `enqueue` accepts an empty command, and a second
`enqueue` with the same caller-supplied id succeeds, leaving two distinct
jobs with equal ids in the store; the claimed validation and the
distinct-ids invariant fail on the code. -/
theorem claimC2_counterexample :
    (((enqueue ((enqueue [] jdEmptyDup "g1" 0).1) jdHiDup "g2" 5).1).map
        (fun j => j.id) = ["dup", "dup"])
    ∧ ((enqueue [] jdEmptyDup "g1" 0).2).command = "" := by
  decide

/-- C2 (amended): `enqueue` performs no validation at all: it unconditionally
appends the constructed job (state pending, attempts 0, fresh timestamps,
defaults max_retries 3, priority 5, timeout 300000 ms, generated id when
none is supplied), accepting an empty command and an id that collides with
an existing job, so two distinct jobs may share an id. -/
theorem claimC2_enqueue_no_validation (jobs : List Job) (jd : JobData)
    (genId : String) (now : Nat) :
    (enqueue jobs jd genId now).1 = jobs ++ [(enqueue jobs jd genId now).2]
    ∧ (enqueue jobs jd genId now).2.state = JState.pending
    ∧ (enqueue jobs jd genId now).2.attempts = 0
    ∧ (enqueue jobs jd genId now).2.command = jd.command
    ∧ (enqueue jobs jd genId now).2.created_at = now
    ∧ (enqueue jobs jd genId now).2.updated_at = now
    ∧ (jd.max_retries = none → (enqueue jobs jd genId now).2.max_retries = 3)
    ∧ (jd.priority = none → (enqueue jobs jd genId now).2.priority = 5)
    ∧ (jd.timeout = none → (enqueue jobs jd genId now).2.timeout = 300000)
    ∧ (jd.id = none → (enqueue jobs jd genId now).2.id = genId) := by
  refine ⟨rfl, rfl, rfl, rfl, rfl, rfl, ?_, ?_, ?_, ?_⟩
  · intro h
    simp [enqueue, mkJob, jsOrNat, h]
  · intro h
    simp [enqueue, mkJob, jsOrInt, h]
  · intro h
    simp [enqueue, mkJob, jsOrNat, h]
  · intro h
    simp [enqueue, mkJob, jsOrStr, h]

/-- C2 witness: enqueue on the empty store with no optional fields. -/
theorem claimC2_enqueue_no_validation_witness :
    (enqueue [] jdPlain "g" 7).2.max_retries = 3 :=
  ((claimC2_enqueue_no_validation [] jdPlain "g" 7).2.2.2.2.2.2.1) rfl

/-- C5 counterexample: `complete` (updateJobState) has no precondition: it
turns a pending job directly into completed, a second complete of an
already-completed job silently succeeds (bumping updated_at), and a second
cancel of an already-cancelled job returns success rather than an error. -/
theorem claimC5_counterexample :
    ((updateJobState [baseJob] "a" JState.completed none 50).map
        (fun j => j.state) = [JState.completed])
    ∧ baseJob.state = JState.pending
    ∧ ((updateJobState [c5Completed] "c" JState.completed none 99).map
        (fun j => j.updated_at) = [99])
    ∧ ((cancelJob [c5Cancelled] "x" 60).toOption.isSome = true) := by
  decide

/-- C5 (amended): `updateJobState` (the complete path) applies to the first
job with the given id whatever its current state, with no precondition and
no error; `cancelJob` rejects only processing and completed jobs, so a
second cancel of a cancelled job silently succeeds; only `retryFromDLQ`
rejects a job that is not dead, and it does so with a not-found error. -/
theorem claimC5_no_preconditions (l₁ l₂ : List Job) (j : Job) (st : JState)
    (err : Option String) (now : Nat) (h₁ : ∀ q ∈ l₁, q.id ≠ j.id) :
    (updateJobState (l₁ ++ j :: l₂) j.id st err now =
        l₁ ++ { j with
            state := st
            error := err
            updated_at := now
            locked_by := none
            locked_at := none } :: l₂)
    ∧ (j.state = JState.cancelled →
        (cancelJob (l₁ ++ j :: l₂) j.id now).toOption.isSome = true)
    ∧ (∀ s : List Job, (∀ q ∈ s, q.id = j.id → q.state ≠ JState.dead) →
        retryFromDLQ s j.id now =
          Except.error ("Job " ++ j.id ++ " not found in DLQ")) := by
  have hb : ∀ q ∈ l₁, (q.id == j.id) = false :=
    fun q hq => idBeq_false q j.id (h₁ q hq)
  refine ⟨?_, ?_, ?_⟩
  · exact updateFirst_append _ _ l₁ l₂ j (by simp) hb
  · intro hc
    have hfind : (l₁ ++ j :: l₂).find? (fun q => q.id == j.id) = some j :=
      find?_append_first _ l₁ l₂ j hb (by simp)
    unfold cancelJob
    rw [hfind]
    simp [hc, Except.toOption]
  · intro s hs
    have hn : s.find? (dlqMatch j.id) = none :=
      List.find?_eq_none.mpr (by
        intro x hx
        simp [dlqMatch_eq_false j.id x
          (fun hc => hs x hx hc.1 hc.2)])
    unfold retryFromDLQ
    rw [hn]

/-- C5 witness: completing a pending job with no precondition check. -/
theorem claimC5_no_preconditions_witness :
    updateJobState ([] ++ baseJob :: []) baseJob.id JState.completed none 9 =
      [] ++ { baseJob with
          state := JState.completed
          error := none
          updated_at := 9
          locked_by := none
          locked_at := none } :: [] :=
  (claimC5_no_preconditions [] [] baseJob JState.completed none 9
    (by simp)).1

/-- C6 counterexample: a completed job that still carries a stale lock
(locked_by set, locked_at older than the 5-minute horizon) is selected and
returned by `getNextJob`, contradicting the claim that completed jobs are
never selected even with a stale lock. -/
theorem claimC6_counterexample :
    ((getNextJob [c6StaleCompleted] "w2" 1000000).1.map (fun j => j.id)
      = some "a")
    ∧ c6StaleCompleted.state = JState.completed := by
  decide

/-- C6 (amended): `getNextJob` never selects a cancelled job; it never
selects a completed or dead job unless that job carries a stale lock
(locked_by set and locked_at older than the 5-minute horizon), in which
case the stale-lock reclaim clause makes it eligible; and when the eligible
set is empty it returns none and leaves the store unchanged. -/
theorem claimC6_excluded_states (jobs : List Job) (workerId : String)
    (now : Nat) :
    (∀ i j, selectedPair jobs now = some (i, j) →
      j.state ≠ JState.cancelled
      ∧ ((j.state = JState.completed ∨ j.state = JState.dead) →
          lockStale now j = true))
    ∧ (eligibleList jobs now = [] →
        getNextJob jobs workerId now = (none, jobs)) := by
  constructor
  · intro i j h
    have hmem := (selectedPair_some jobs now (i, j) h).1
    have helig := (mem_eligibleList jobs now (i, j) hmem).2
    rcases eligibleB_cases now j helig with ⟨hnc, hcase⟩
    refine ⟨hnc, ?_⟩
    intro hcd
    rcases hcase with hp | ⟨hf, _⟩ | hs
    · rcases hcd with hcd | hcd <;> rw [hcd] at hp <;> cases hp
    · rcases hcd with hcd | hcd <;> rw [hcd] at hf <;> cases hf
    · exact hs
  · intro h
    exact getNextJob_of_empty jobs workerId now h

/-- C6 witness: the empty store has an empty eligible set. -/
theorem claimC6_excluded_states_witness :
    getNextJob [] "w" 0 = (none, []) :=
  (claimC6_excluded_states [] "w" 0).2 rfl

/-- C3 counterexample: two eligible priority-1 jobs; the one stored first
was created later (newer created_at), yet `getNextJob` returns it, because
the source breaks priority ties by array position, not by older created_at. -/
theorem claimC3_counterexample :
    ((getNextJob [c3Newer, c3Older] "w" 1000).1.map (fun j => j.id)
      = some "n")
    ∧ c3Newer.priority = c3Older.priority
    ∧ c3Older.created_at < c3Newer.created_at := by
  decide

/-- C3 (amended): with a non-empty eligible set, `getNextJob` selects an
eligible job of minimal priority, breaking priority ties by the earliest
position in the stored array (insertion order) rather than by older
created_at; it sets exactly state processing, locked_by, locked_at and
updated_at on that job, leaving its other fields (in particular attempts)
and all other jobs unchanged, and returns the updated job. -/
theorem claimC3_selection (jobs : List Job) (workerId : String) (now : Nat) :
    (∀ i j, selectedPair jobs now = some (i, j) →
      jobs.get? i = some j
      ∧ eligibleB now j = true
      ∧ (∀ q ∈ eligibleList jobs now, j.priority ≤ q.2.priority)
      ∧ (∀ q ∈ eligibleList jobs now, q.2.priority = j.priority → i ≤ q.1)
      ∧ getNextJob jobs workerId now =
          (some (claimUpdate workerId now j),
           jobs.set i (claimUpdate workerId now j))
      ∧ (claimUpdate workerId now j).state = JState.processing
      ∧ (claimUpdate workerId now j).locked_by = some workerId
      ∧ (claimUpdate workerId now j).locked_at = some now
      ∧ (claimUpdate workerId now j).updated_at = now
      ∧ (claimUpdate workerId now j).attempts = j.attempts
      ∧ (claimUpdate workerId now j).id = j.id
      ∧ (claimUpdate workerId now j).command = j.command
      ∧ (claimUpdate workerId now j).priority = j.priority
      ∧ (claimUpdate workerId now j).max_retries = j.max_retries
      ∧ (claimUpdate workerId now j).timeout = j.timeout
      ∧ (claimUpdate workerId now j).created_at = j.created_at
      ∧ (claimUpdate workerId now j).next_retry_at = j.next_retry_at
      ∧ (claimUpdate workerId now j).error = j.error
      ∧ (∀ k, k ≠ i →
          (jobs.set i (claimUpdate workerId now j)).get? k = jobs.get? k))
    ∧ (eligibleList jobs now ≠ [] → selectedPair jobs now ≠ none) := by
  constructor
  · intro i j h
    rcases selectedPair_some jobs now (i, j) h with ⟨hmem, hmin, htie⟩
    have hw := (mem_eligibleList jobs now (i, j) hmem).1
    have hget : jobs.get? i = some j := by
      have := mem_withIdx_get? 0 jobs (i, j) hw
      simpa using this
    refine ⟨hget, (mem_eligibleList jobs now (i, j) hmem).2, hmin, htie,
      getNextJob_of_selected jobs workerId now i j h,
      rfl, rfl, rfl, rfl, rfl, rfl, rfl, rfl, rfl, rfl, rfl, rfl, rfl, ?_⟩
    intro k hk
    simp [List.getElem?_set_ne (Ne.symm hk)]
  · exact selectedPair_some_of_ne jobs now

/-- C3 witness: a single pending job is selected and claimed. -/
theorem claimC3_selection_witness :
    getNextJob [baseJob] "w1" 500 =
      (some (claimUpdate "w1" 500 baseJob),
       [baseJob].set 0 (claimUpdate "w1" 500 baseJob)) :=
  (((claimC3_selection [baseJob] "w1" 500).1 0 baseJob
    (by decide)).2.2.2.2.1)

/-- C8 counterexample: a store with one completed and one pending job: the
code reports successRate 50 (a percentage), not the fraction
completed/total = 1/2 stated by the claim. -/
theorem claimC8_counterexample :
    (getMetrics [c8Completed, c8Pending]).completedJobs = 1
    ∧ (getMetrics [c8Completed, c8Pending]).totalJobs = 2
    ∧ (getMetrics [c8Completed, c8Pending]).successRate = 50
    ∧ ¬ ((getMetrics [c8Completed, c8Pending]).successRate
        = ((getMetrics [c8Completed, c8Pending]).completedJobs : ℚ)
          / ((getMetrics [c8Completed, c8Pending]).totalJobs : ℚ)) := by
  have hc : completedOf [c8Completed, c8Pending] = [c8Completed] := rfl
  have hl : latenciesOf [c8Completed, c8Pending] = [(2500 : Int)] := rfl
  have hm : getMetrics [c8Completed, c8Pending] =
      { totalJobs := 2
        completedJobs := 1
        avgExecutionTime := 3
        successRate := 50 } := by
    unfold getMetrics
    rw [hc, hl]
    norm_num [toFixed1, jsMathRound]
  rw [hm]
  norm_num

/-- C8 (amended): `getMetrics` reports the success rate as a percentage,
completed/total times 100 rounded to one decimal, and the average completion
latency as updated_at minus created_at over completed jobs only, averaged
and rounded to whole seconds; all derived values are zero when the store is
empty (and already when no job is completed). -/
theorem claimC8_metrics (jobs : List Job) :
    (getMetrics jobs).totalJobs = jobs.length
    ∧ (getMetrics jobs).completedJobs = (completedOf jobs).length
    ∧ (jobs.length = 0 → getMetrics jobs = ⟨0, 0, 0, 0⟩)
    ∧ ((completedOf jobs).length = 0 →
        (getMetrics jobs).successRate = 0
        ∧ (getMetrics jobs).avgExecutionTime = 0)
    ∧ (0 < (completedOf jobs).length →
        (getMetrics jobs).successRate =
          toFixed1 (((completedOf jobs).length : ℚ) / (jobs.length : ℚ) * 100)
        ∧ (getMetrics jobs).avgExecutionTime =
          jsMathRound ((((latenciesOf jobs).sum : Int) : ℚ)
            / ((latenciesOf jobs).length : ℚ) / 1000)) := by
  by_cases hz : (completedOf jobs).length = 0
  · refine ⟨?_, ?_, ?_, ?_, ?_⟩
    · simp [getMetrics, hz]
    · simp [getMetrics, hz]
    · intro h
      simp [getMetrics, hz, h]
    · intro _
      simp [getMetrics, hz]
    · intro h
      omega
  · refine ⟨?_, ?_, ?_, ?_, ?_⟩
    · simp [getMetrics, hz]
    · simp [getMetrics, hz]
    · intro h
      exfalso
      have hle : (completedOf jobs).length ≤ jobs.length := by
        simpa [completedOf] using List.length_filter_le
          (fun j => decide (j.state = JState.completed)) jobs
      omega
    · intro h
      exact absurd h hz
    · intro _
      exact ⟨by simp [getMetrics, hz], by simp [getMetrics, hz]⟩

/-- C8 witness: the empty store yields all-zero derived metrics. -/
theorem claimC8_metrics_witness :
    (getMetrics []).successRate = 0 ∧ (getMetrics []).avgExecutionTime = 0 :=
  (claimC8_metrics []).2.2.2.1 rfl

/-- C9: `ConfigManager.set` accepts only the keys max-retries and
backoff-base and only positive numeric values: any other key and any NaN or
non-positive value is rejected with a validation error (and then no new
configuration is produced, so the stored configuration is unchanged);
success implies the key was recognized and the value positive. -/
theorem claimC9_config_validation (cfg : Config) (key : String)
    (v : Option ℚ) :
    (key ∉ validKeys →
      ConfigManager.set cfg key v =
        Except.error "Invalid config key. Valid keys: max-retries, backoff-base")
    ∧ (key ∈ validKeys → v = none →
        ConfigManager.set cfg key v =
          Except.error "Value must be a positive number")
    ∧ (key ∈ validKeys → ∀ q, v = some q → q ≤ 0 →
        ConfigManager.set cfg key v =
          Except.error "Value must be a positive number")
    ∧ (∀ c, ConfigManager.set cfg key v = Except.ok c →
        key ∈ validKeys ∧ ∃ q, v = some q ∧ 0 < q) := by
  refine ⟨?_, ?_, ?_, ?_⟩
  · intro hk
    simp [ConfigManager.set, hk]
  · intro hk hv
    subst hv
    simp [ConfigManager.set, hk]
  · intro hk q hv hq
    subst hv
    simp [ConfigManager.set, hk, hq]
  · intro c hc
    by_cases hk : key ∈ validKeys
    · cases v with
      | none => simp [ConfigManager.set, hk] at hc
      | some q =>
        by_cases hq : q ≤ 0
        · simp [ConfigManager.set, hk, hq] at hc
        · exact ⟨hk, q, rfl, lt_of_not_le hq⟩
    · simp [ConfigManager.set, hk] at hc

/-- C9 witness: an unknown key is rejected. -/
theorem claimC9_config_validation_witness :
    ConfigManager.set ⟨3, 2⟩ "bogus" (some 1) =
      Except.error "Invalid config key. Valid keys: max-retries, backoff-base" :=
  (claimC9_config_validation ⟨3, 2⟩ "bogus" (some 1)).1 (by decide)


end QueueCTL
